import Mathlib

/-!
Verification of the ShopEasy storefront client (`src/src/App.jsx`).

The file shallowly embeds the data-fetch orchestration of the React
component `App`: the product item shape, the `categories` useMemo,
the `fetchProducts` state-update sequence, the query-parameter builder,
the mount effect (`seed` then first fetch), the debounce effect, and
the render-time view selection.  State updates are modelled as explicit
update lists applied to an `AppState` record; asynchronous outcomes are
modelled as explicit outcome values.
-/

namespace ShopEasy

/-- A product item as consumed by `App.jsx`.  Only the fields the
coordinator logic reads are modelled; `category` is `Option String`
because the field may be absent (`none`), present but empty
(`some ""`), or a real value. -/
structure Item where
  id : String
  title : String
  price : Int
  category : Option String
  inStock : Bool
  deriving DecidableEq, Repr

/-- JavaScript truthiness of an optional string, as used by
`.filter(Boolean)` on line 77: `undefined` and `""` are falsy. -/
def truthy : Option String → Bool
  | none => false
  | some s => !(s == "")

/-- One insertion into a JavaScript `Set` viewed as its insertion-order
list: adding an element already present changes nothing, a new element
goes to the end. -/
def insertUnique (acc : List String) (c : String) : List String :=
  if c ∈ acc then acc else acc ++ [c]

/-- `Array.from(new Set(l))`: first-seen-order de-duplication, the
insertion-order semantics of a JavaScript `Set`. -/
def jsSetOfList (l : List String) : List String :=
  l.foldl insertUnique []

/-- The raw category value list: `items.map(i => i.category).filter(Boolean)`
(line 77), with the `Option` wrapper of the embedding stripped from the
surviving (necessarily present) values. -/
def rawCats (items : List Item) : List String :=
  ((items.map Item.category).filter truthy).filterMap id

/-- The `categories` useMemo (lines 76-79):
`Array.from(new Set(items.map(i => i.category).filter(Boolean)))`. -/
def categoriesOf (items : List Item) : List String :=
  jsSetOfList (rawCats items)

/-- Modelled from the spec: first-seen-order de-duplication stated as a
direct recursion (keep the head, drop later copies), used as the
specification-side description to compare `jsSetOfList` against. -/
def firstSeenSpec : List String → List String
  | [] => []
  | c :: l => c :: firstSeenSpec (l.filter (fun x => !(x == c)))
termination_by l => l.length
decreasing_by
  simp only [List.length_cons]
  exact Nat.lt_succ_of_le (List.length_filter_le _ _)

/-- The component state held by the `useState` hooks of `App`
(lines 70-74). -/
structure AppState where
  items : List Item
  loading : Bool
  query : String
  category : String
  error : String
  deriving DecidableEq, Repr

/-- The initial component state: `items = []`, `loading = true`,
`query = '' `, `category = ''`, `error = ''`. -/
def initialState : AppState :=
  { items := [], loading := true, query := "", category := "", error := "" }

/-- The JSON object a completed response body parses to, as read by
`fetchProducts`: only the `items` field is consulted.  `none` stands
for an absent (or JavaScript-falsy) `items` field, in which case
`data.items || []` on line 90 yields the empty list. -/
structure RespData where
  items : Option (List Item)
  deriving DecidableEq, Repr

/-- Outcome of the `fetch` + `res.json()` pair inside `fetchProducts`:
either the network request rejects, or a response with some HTTP status
completes and its body either fails to parse (`none`) or parses to a
`RespData`.  `fetchProducts` never reads the status. -/
inductive HttpResult where
  | netError
  | responded (status : Nat) (body : Option RespData)
  deriving DecidableEq, Repr

/-- One state update performed by `fetchProducts` (`setLoading`,
`setError`, `setItems`) or the diagnostic `console.error` call. -/
inductive Update where
  | setLoading (b : Bool)
  | setError (msg : String)
  | setItems (its : List Item)
  | logError
  deriving DecidableEq, Repr

/-- `true` exactly on `Update.setLoading _`. -/
def isSetLoading : Update → Bool
  | Update.setLoading _ => true
  | _ => false

/-- `true` exactly on `Update.setLoading false`. -/
def isSetLoadingFalse : Update → Bool
  | Update.setLoading false => true
  | _ => false

/-- The state-update sequence of one `fetchProducts` invocation
(lines 81-97): `setLoading(true)`, `setError('')`, then on the awaited
outcome either `setItems(data.items || [])` (try body completes) or
`console.error(e)` and `setError('Failed to load products')` (catch),
and in all cases `setLoading(false)` last (finally). -/
def fetchUpdates (r : HttpResult) : List Update :=
  [Update.setLoading true, Update.setError ""] ++
    (match r with
     | HttpResult.netError =>
         [Update.logError, Update.setError "Failed to load products"]
     | HttpResult.responded _ none =>
         [Update.logError, Update.setError "Failed to load products"]
     | HttpResult.responded _ (some d) =>
         [Update.setItems (d.items.getD [])]) ++
  [Update.setLoading false]

/-- Applying one state update to the component state. -/
def applyUpdate (s : AppState) : Update → AppState
  | Update.setLoading b => { s with loading := b }
  | Update.setError m => { s with error := m }
  | Update.setItems its => { s with items := its }
  | Update.logError => s

/-- Applying a state-update sequence in order. -/
def applyUpdates (s : AppState) (us : List Update) : AppState :=
  us.foldl applyUpdate s

/-- The query parameters built by `fetchProducts` (lines 85-87): a fresh
`URLSearchParams`, `category` appended when `opts.category` is truthy,
then `q` appended when `opts.q` is truthy.  An absent option behaves as
the empty string (both are falsy). -/
def buildParams (q category : String) : List (String × String) :=
  (if category ≠ "" then [("category", category)] else []) ++
    (if q ≠ "" then [("q", q)] else [])

/-- The query state captured by the debounce effect: search term and
selected category. -/
structure QS where
  q : String
  category : String
  deriving DecidableEq, Repr

/-- The empty query state: term and category both `''`. -/
def emptyQS : QS := { q := "", category := "" }

/-- Debounce-timer state: at most one pending `setTimeout` (fire time
and the query state captured on line 104), plus the fetches already
fired, in order, each with its fire time and captured values. -/
structure Sched where
  pending : Option (Nat × QS)
  fired : List (Nat × QS)
  deriving DecidableEq, Repr

/-- One run of the debounce effect (lines 103-106) at the moment the
query state changes at time `e.1` to value `e.2`: the cleanup
`clearTimeout` cancels the pending timer if it has not fired yet (it
has fired exactly when its fire time is at most the current time), and
a fresh 300 ms timer is scheduled capturing the new values. -/
def stepEvent (s : Sched) (e : Nat × QS) : Sched :=
  { pending := some (e.1 + 300, e.2)
    fired :=
      match s.pending with
      | some (ft, v) => if ft ≤ e.1 then s.fired ++ [(ft, v)] else s.fired
      | none => s.fired }

/-- Processing a sequence of query-state change events in order. -/
def runEvents (s : Sched) (es : List (Nat × QS)) : Sched :=
  es.foldl stepEvent s

/-- After the last change, once the 300 ms delay elapses undisturbed the
pending timer fires: the full list of fetches issued for the window. -/
def flushSched (s : Sched) : List (Nat × QS) :=
  match s.pending with
  | some (ft, v) => s.fired ++ [(ft, v)]
  | none => s.fired

/-- All fetches issued (with fire times and captured query values) for
a window of query-state change events, starting with no pending timer. -/
def debounceRun (es : List (Nat × QS)) : List (Nat × QS) :=
  flushSched (runEvents { pending := none, fired := [] } es)

/-- `rapidFrom t es` holds when every event in `es` happens no earlier
than its predecessor and strictly before the predecessor's 300 ms delay
elapses, starting from an event at time `t`. -/
def rapidFrom : Nat → List (Nat × QS) → Bool
  | _, [] => true
  | t0, (t, _) :: rest => (t0 ≤ t && t < t0 + 300) && rapidFrom t rest

/-- An action observable during the mount effect (lines 99-101) of the
component: the seed call, a user-facing error, or a product fetch with
the term and category it carries. -/
inductive StartupAction where
  | seedCall
  | showError (msg : String)
  | productFetch (q category : String)
  deriving DecidableEq, Repr

/-- `true` exactly on `StartupAction.seedCall`. -/
def isSeedCall : StartupAction → Bool
  | StartupAction.seedCall => true
  | _ => false

/-- `true` exactly on `StartupAction.showError _`. -/
def isShowError : StartupAction → Bool
  | StartupAction.showError _ => true
  | _ => false

/-- `true` exactly on `StartupAction.productFetch _ _`. -/
def isProductFetch : StartupAction → Bool
  | StartupAction.productFetch _ _ => true
  | _ => false

/-- The mount effect (lines 99-101):
`fetch(API_BASE + '/api/seed', {method: 'POST'}).finally(() => fetchProducts())`.
`.finally` runs the same callback on fulfilment and on rejection, so the
two match arms are the same `fetchProducts()` call; `fetchProducts()`
passes no options, hence empty term and category.  No handler surfaces
a seed error to the user. -/
def mountEffect (seedOk : Bool) : List StartupAction :=
  StartupAction.seedCall ::
    (match (if seedOk then Except.ok () else Except.error ()) with
     | Except.ok () => [StartupAction.productFetch "" ""]
     | Except.error () => [StartupAction.productFetch "" ""])

/-- A piece of UI the component renders in its main section. -/
inductive View where
  | errorBanner (msg : String)
  | skeletons (n : Nat)
  | noResults
  | grid (items : List Item)
  deriving DecidableEq, Repr

/-- The views rendered by `App` (lines 133-150): the error banner is
emitted whenever `error` is truthy (`{error && ...}`), and separately
the ternary chain emits exactly one of: 8 skeletons while loading, the
no-results card when the item list is empty, else the grid. -/
def render (loading : Bool) (error : String) (items : List Item) : List View :=
  (if error ≠ "" then [View.errorBanner error] else []) ++
    [if loading then View.skeletons 8
     else if items.isEmpty then View.noResults
     else View.grid items]

/-- Modelled from the spec: the view selection as the claim states it —
mutually exclusive, priority loading, then error, then empty, then
grid — used to compare `render` against. -/
def claimedRender (loading : Bool) (error : String) (items : List Item) :
    List View :=
  if loading then [View.skeletons 8]
  else if error ≠ "" then [View.errorBanner error]
  else if items.isEmpty then [View.noResults]
  else [View.grid items]

end ShopEasy

namespace ShopEasy

theorem insertUnique_mem (acc : List String) (c x : String) :
    x ∈ insertUnique acc c ↔ x ∈ acc ∨ x = c := by
  unfold insertUnique
  by_cases h : c ∈ acc
  · simp only [if_pos h]
    constructor
    · exact Or.inl
    · rintro (hx | rfl)
      · exact hx
      · exact h
  · simp [if_neg h]

theorem foldl_insertUnique_mem (l : List String) :
    ∀ (acc : List String) (x : String),
      x ∈ l.foldl insertUnique acc ↔ x ∈ acc ∨ x ∈ l := by
  induction l with
  | nil => intro acc x; simp
  | cons c t ih =>
    intro acc x
    simp only [List.foldl_cons]
    rw [ih (insertUnique acc c) x, insertUnique_mem]
    simp [or_assoc]

theorem insertUnique_nodup (acc : List String) (c : String)
    (h : acc.Nodup) : (insertUnique acc c).Nodup := by
  unfold insertUnique
  by_cases hc : c ∈ acc
  · simpa [if_pos hc] using h
  · simp [if_neg hc, List.nodup_append, h, hc]

theorem foldl_insertUnique_nodup (l : List String) :
    ∀ acc : List String, acc.Nodup → (l.foldl insertUnique acc).Nodup := by
  induction l with
  | nil => intro acc h; simpa using h
  | cons c t ih =>
    intro acc h
    simp only [List.foldl_cons]
    exact ih _ (insertUnique_nodup acc c h)

theorem foldl_insertUnique_split (l : List String) :
    ∀ acc : List String,
      ∃ t, l.foldl insertUnique acc = acc ++ t ∧ t.Sublist l := by
  induction l with
  | nil => intro acc; exact ⟨[], by simp⟩
  | cons c r ih =>
    intro acc
    simp only [List.foldl_cons]
    by_cases hc : c ∈ acc
    · obtain ⟨t, ht, hs⟩ := ih acc
      refine ⟨t, ?_, hs.cons c⟩
      rw [insertUnique, if_pos hc]
      exact ht
    · obtain ⟨t, ht, hs⟩ := ih (acc ++ [c])
      refine ⟨c :: t, ?_, hs.cons₂ c⟩
      rw [insertUnique, if_neg hc, ht]
      simp

theorem foldl_insertUnique_of_fresh (l : List String) :
    ∀ acc : List String, l.Nodup → (∀ x ∈ l, x ∉ acc) →
      l.foldl insertUnique acc = acc ++ l := by
  induction l with
  | nil => intro acc _ _; simp
  | cons c t ih =>
    intro acc hnd hfresh
    simp only [List.foldl_cons]
    have hc : c ∉ acc := hfresh c (by simp)
    rw [insertUnique, if_neg hc]
    rw [ih (acc ++ [c]) (List.Nodup.of_cons hnd)]
    · simp
    · intro x hx
      simp only [List.mem_append, List.mem_singleton]
      rintro (hx' | rfl)
      · exact hfresh x (by simp [hx]) hx'
      · exact (List.nodup_cons.mp hnd).1 hx

theorem jsSetOfList_idem (l : List String) :
    jsSetOfList (jsSetOfList l) = jsSetOfList l := by
  unfold jsSetOfList
  rw [foldl_insertUnique_of_fresh _ []
      (foldl_insertUnique_nodup l [] List.nodup_nil) (by simp)]
  simp

theorem firstSeenSpec_nil : firstSeenSpec [] = [] := by
  rw [firstSeenSpec.eq_def]

theorem firstSeenSpec_cons (c : String) (l : List String) :
    firstSeenSpec (c :: l) =
      c :: firstSeenSpec (l.filter (fun x => !(x == c))) := by
  rw [firstSeenSpec.eq_def]

theorem foldl_insertUnique_eq_firstSeen (l : List String) :
    ∀ acc : List String,
      l.foldl insertUnique acc =
        acc ++ firstSeenSpec (l.filter (fun x => !(decide (x ∈ acc)))) := by
  induction l with
  | nil => intro acc; simp [firstSeenSpec_nil]
  | cons c t ih =>
    intro acc
    simp only [List.foldl_cons]
    by_cases hc : c ∈ acc
    · rw [insertUnique, if_pos hc, ih acc]
      have hcons : (c :: t).filter (fun x => !(decide (x ∈ acc))) =
          t.filter (fun x => !(decide (x ∈ acc))) := by
        simp [List.filter_cons, hc]
      rw [hcons]
    · rw [insertUnique, if_neg hc, ih (acc ++ [c])]
      have hcons : (c :: t).filter (fun x => !(decide (x ∈ acc))) =
          c :: t.filter (fun x => !(decide (x ∈ acc))) := by
        simp [List.filter_cons, hc]
      rw [hcons, firstSeenSpec_cons, List.filter_filter]
      have hpred :
          (t.filter fun x => !(x == c) && !(decide (x ∈ acc))) =
            t.filter fun x => !(decide (x ∈ acc ++ [c])) := by
        apply List.filter_congr
        intro x _
        by_cases hx : x ∈ acc
        · simp [hx]
        · by_cases hxc : x = c <;> simp [hx, hxc]
      rw [hpred]
      simp

theorem jsSetOfList_eq_firstSeenSpec (l : List String) :
    jsSetOfList l = firstSeenSpec l := by
  have h := foldl_insertUnique_eq_firstSeen l []
  simpa [jsSetOfList] using h

theorem mem_rawCats (items : List Item) (c : String) :
    c ∈ rawCats items ↔ c ≠ "" ∧ ∃ i ∈ items, i.category = some c := by
  simp only [rawCats, List.mem_filterMap, id_eq, List.mem_filter,
    List.mem_map, truthy]
  constructor
  · rintro ⟨oc, ⟨⟨i, hi, rfl⟩, htruthy⟩, hoc⟩
    cases h : i.category with
    | none => rw [h] at hoc; cases hoc
    | some s =>
      rw [h] at hoc htruthy
      cases hoc
      refine ⟨?_, i, hi, h⟩
      intro hc
      subst hc
      simp at htruthy
  · rintro ⟨hne, i, hi, hcat⟩
    exact ⟨some c, ⟨⟨i, hi, hcat⟩, by simp [hne]⟩, rfl⟩

theorem mem_categoriesOf (items : List Item) (c : String) :
    c ∈ categoriesOf items ↔ c ≠ "" ∧ ∃ i ∈ items, i.category = some c := by
  rw [categoriesOf, jsSetOfList, foldl_insertUnique_mem]
  simp [mem_rawCats]

/-- C2: the derived category sequence equals the non-empty category
values of the items de-duplicated in first-seen order (stated as
equality with the recursive first-seen specification, plus: no
duplicates, no empty entry, membership exactly at the non-empty
categories of the items, order preserved as a sublist of the raw
category extraction); the de-duplication is idempotent when re-applied;
and on items with categories `[A, B, A, "", C, B]` (with a category
field also absent on one extra item) it yields exactly `[A, B, C]`. -/
theorem claim_C2 :
    (∀ items : List Item, categoriesOf items = firstSeenSpec (rawCats items)) ∧
    (∀ items : List Item, (categoriesOf items).Nodup) ∧
    (∀ items : List Item, "" ∉ categoriesOf items) ∧
    (∀ (items : List Item) (c : String),
      c ∈ categoriesOf items ↔ c ≠ "" ∧ ∃ i ∈ items, i.category = some c) ∧
    (∀ items : List Item, (categoriesOf items).Sublist (rawCats items)) ∧
    (∀ items : List Item, jsSetOfList (categoriesOf items) = categoriesOf items) ∧
    categoriesOf
      [{ id := "1", title := "p1", price := 10, category := some "A", inStock := true },
       { id := "2", title := "p2", price := 20, category := some "B", inStock := true },
       { id := "3", title := "p3", price := 30, category := some "A", inStock := false },
       { id := "4", title := "p4", price := 40, category := some "", inStock := true },
       { id := "5", title := "p5", price := 50, category := some "C", inStock := true },
       { id := "6", title := "p6", price := 60, category := some "B", inStock := true },
       { id := "7", title := "p7", price := 70, category := none, inStock := true }] =
      ["A", "B", "C"] := by
  refine ⟨?_, ?_, ?_, mem_categoriesOf, ?_, ?_, by decide⟩
  · intro items
    exact jsSetOfList_eq_firstSeenSpec (rawCats items)
  · intro items
    exact foldl_insertUnique_nodup (rawCats items) [] List.nodup_nil
  · intro items
    rw [mem_categoriesOf]
    rintro ⟨h, -⟩
    exact h rfl
  · intro items
    obtain ⟨t, ht, hs⟩ := foldl_insertUnique_split (rawCats items) []
    rw [categoriesOf, jsSetOfList, ht]
    simpa using hs
  · intro items
    exact jsSetOfList_idem (rawCats items)

theorem runEvents_rapid (es : List (Nat × QS)) :
    ∀ (d : Nat × QS) (fired : List (Nat × QS)),
      rapidFrom d.1 es = true →
      runEvents { pending := some (d.1 + 300, d.2), fired := fired } es =
        { pending := some ((es.getLastD d).1 + 300, (es.getLastD d).2)
          fired := fired } := by
  induction es with
  | nil => intro d fired _; simp [runEvents, List.getLastD]
  | cons e rest ih =>
    intro d fired h
    obtain ⟨t, qs⟩ := e
    simp only [rapidFrom, Bool.and_eq_true, decide_eq_true_eq] at h
    obtain ⟨⟨hle, hlt⟩, hrest⟩ := h
    have hstep :
        stepEvent { pending := some (d.1 + 300, d.2), fired := fired } (t, qs) =
          { pending := some (t + 300, qs), fired := fired } := by
      simp [stepEvent, Nat.not_le.mpr hlt]
    have hrun :
        runEvents { pending := some (d.1 + 300, d.2), fired := fired }
            ((t, qs) :: rest) =
          runEvents { pending := some (t + 300, qs), fired := fired } rest := by
      simp only [runEvents, List.foldl_cons]
      rw [show stepEvent { pending := some (d.1 + 300, d.2), fired := fired }
            (t, qs) = { pending := some (t + 300, qs), fired := fired }
          from hstep]
    rw [hrun, ih (t, qs) fired hrest, List.getLastD_cons]

/-- C1: for any window of query-state changes in which every change
happens before the previous 300 ms delay elapses, no fetch fires during
the window (no leading-edge call) and, once the last delay elapses
undisturbed, exactly one fetch fires, 300 ms after the last change and
carrying exactly the last change's term and category. -/
theorem claim_C1 (e0 : Nat × QS) (rest : List (Nat × QS))
    (h : rapidFrom e0.1 rest = true) :
    debounceRun (e0 :: rest) =
      [((rest.getLastD e0).1 + 300, (rest.getLastD e0).2)] ∧
    (runEvents { pending := none, fired := [] } (e0 :: rest)).fired = [] := by
  have hfirst :
      runEvents { pending := none, fired := [] } (e0 :: rest) =
        runEvents { pending := some (e0.1 + 300, e0.2), fired := [] } rest := by
    simp only [runEvents, List.foldl_cons]
    rfl
  have hrun := runEvents_rapid rest e0 [] h
  constructor
  · unfold debounceRun
    rw [hfirst, hrun]
    simp [flushSched]
  · rw [hfirst, hrun]

/-- Witness for C1: three keystrokes at 0 ms, 100 ms and 250 ms satisfy
the rapid-window hypothesis, and the run issues exactly the single
trailing fetch at 550 ms with the final values. -/
theorem claim_C1_witness :
    rapidFrom (0, QS.mk "s" "").1
        [(100, QS.mk "sh" ""), (250, QS.mk "shoe" "Electronics")] = true ∧
    (debounceRun
        [(0, QS.mk "s" ""), (100, QS.mk "sh" ""),
         (250, QS.mk "shoe" "Electronics")] =
      [(550, QS.mk "shoe" "Electronics")] ∧
    (runEvents { pending := none, fired := [] }
        [(0, QS.mk "s" ""), (100, QS.mk "sh" ""),
         (250, QS.mk "shoe" "Electronics")]).fired = []) := by
  refine ⟨by decide, ?_⟩
  exact claim_C1 (0, QS.mk "s" "")
    [(100, QS.mk "sh" ""), (250, QS.mk "shoe" "Electronics")] (by decide)

/-- C3: in every `fetchProducts` invocation, whatever the outcome, the
first state update sets the loading flag true, the last one sets it
false, `setLoading false` occurs exactly once, no update between the
first and the last touches the loading flag, and the loading flag is
written exactly twice overall. -/
theorem claim_C3 (r : HttpResult) :
    (fetchUpdates r).head? = some (Update.setLoading true) ∧
    (fetchUpdates r).getLast? = some (Update.setLoading false) ∧
    (fetchUpdates r).countP isSetLoadingFalse = 1 ∧
    ((fetchUpdates r).dropLast.drop 1).all (fun u => !(isSetLoading u)) = true ∧
    (fetchUpdates r).countP isSetLoading = 2 := by
  cases r with
  | netError => exact ⟨rfl, rfl, rfl, rfl, rfl⟩
  | responded status body =>
    cases body with
    | none => exact ⟨rfl, rfl, rfl, rfl, rfl⟩
    | some d => exact ⟨rfl, rfl, rfl, rfl, rfl⟩

/-- C4: a failing fetch (network rejection or unparseable body), applied
to any prior state, leaves the item list (and the query state) exactly
as it was; the whole effect is the error message becoming
`Failed to load products` and the loading flag becoming false. -/
theorem claim_C4 (s : AppState) (status : Nat) :
    applyUpdates s (fetchUpdates HttpResult.netError) =
      { s with error := "Failed to load products", loading := false } ∧
    applyUpdates s (fetchUpdates (HttpResult.responded status none)) =
      { s with error := "Failed to load products", loading := false } :=
  ⟨rfl, rfl⟩

/-- C5: the built query parameters carry `q` exactly when the term is
non-empty and `category` exactly when the category is non-empty; for
term `shoe` and category `Electronics` both pairs are present (the
serialization order is `category` first, then `q`). -/
theorem claim_C5 (q c : String) :
    (("q", q) ∈ buildParams q c ↔ q ≠ "") ∧
    ((∃ v, ("q", v) ∈ buildParams q c) ↔ q ≠ "") ∧
    (("category", c) ∈ buildParams q c ↔ c ≠ "") ∧
    ((∃ v, ("category", v) ∈ buildParams q c) ↔ c ≠ "") ∧
    buildParams "shoe" "Electronics" =
      [("category", "Electronics"), ("q", "shoe")] ∧
    ("q", "shoe") ∈ buildParams "shoe" "Electronics" ∧
    ("category", "Electronics") ∈ buildParams "shoe" "Electronics" := by
  refine ⟨?_, ?_, ?_, ?_, by decide, by decide, by decide⟩ <;>
    by_cases hq : q = "" <;> by_cases hc : c = "" <;>
      simp [buildParams, hq, hc]

/-- C6: the mount effect issues the seed call exactly once and then,
whether the seed call fulfils or rejects, issues the product fetch with
empty term and category; no user-facing error action occurs for a seed
failure. -/
theorem claim_C6 (b : Bool) :
    mountEffect b =
      [StartupAction.seedCall, StartupAction.productFetch "" ""] ∧
    (mountEffect b).countP isSeedCall = 1 ∧
    (mountEffect b).countP isShowError = 0 ∧
    (mountEffect b).countP isProductFetch = 1 := by
  cases b <;> exact ⟨rfl, rfl, rfl, rfl⟩

/-- Counterexample to C7 as stated: with loading false, a non-empty
error message and an empty item list, the component renders TWO views —
the error banner and the no-results card — not exactly one chosen by
the claimed priority order. -/
theorem claim_C7_counterexample :
    render false "Failed to load products" [] =
      [View.errorBanner "Failed to load products", View.noResults] ∧
    (render false "Failed to load products" []).length = 2 ∧
    claimedRender false "Failed to load products" [] =
      [View.errorBanner "Failed to load products"] ∧
    render false "Failed to load products" [] ≠
      claimedRender false "Failed to load products" [] := by
  decide

/-- C7 (amended): the error banner renders exactly when the error
message is non-empty, in addition to — not instead of — the main view;
the main view is exactly one of skeletons (count 8) when loading, else
no-results when the list is empty, else the grid; so one view renders
when no error is set and two views when an error is set. -/
theorem claim_C7 (l : Bool) (e : String) (its : List Item) :
    (View.errorBanner e ∈ render l e its ↔ e ≠ "") ∧
    (View.skeletons 8 ∈ render l e its ↔ l = true) ∧
    (View.noResults ∈ render l e its ↔ l = false ∧ its = []) ∧
    (View.grid its ∈ render l e its ↔ l = false ∧ its ≠ []) ∧
    (render l e its).length = (if e ≠ "" then 2 else 1) := by
  cases l <;> by_cases he : e = "" <;> cases its <;> simp [render, he]

/-- C8: a fetch whose body parses as JSON ends, for any HTTP status and
any prior state, with the item list taken from the `items` field
(defaulting to the empty list when the field is absent), an empty error
message and a cleared loading flag. -/
theorem claim_C8 (s : AppState) (status : Nat) (oitems : Option (List Item)) :
    applyUpdates s
        (fetchUpdates (HttpResult.responded status (some { items := oitems }))) =
      { s with items := oitems.getD [], error := "", loading := false } ∧
    applyUpdates s
        (fetchUpdates (HttpResult.responded status (some { items := none }))) =
      { s with items := [], error := "", loading := false } :=
  ⟨rfl, rfl⟩

/-- C9: `fetchProducts` never reads the response status — its update
sequence is literally status-independent; a completed response with a
parseable body always ends with an empty error message, whatever the
status (4xx/5xx included); and the failure message appears exactly when
the request rejects or the body fails to parse. -/
theorem claim_C9 :
    (∀ (s1 s2 : Nat) (b : Option RespData),
      fetchUpdates (HttpResult.responded s1 b) =
        fetchUpdates (HttpResult.responded s2 b)) ∧
    (∀ (st : AppState) (status : Nat) (d : RespData),
      (applyUpdates st
          (fetchUpdates (HttpResult.responded status (some d)))).error = "") ∧
    (∀ r : HttpResult,
      Update.setError "Failed to load products" ∈ fetchUpdates r ↔
        r = HttpResult.netError ∨
          ∃ status, r = HttpResult.responded status none) := by
  refine ⟨?_, ?_, ?_⟩
  · intro s1 s2 b
    cases b <;> rfl
  · intro st status d
    rfl
  · intro r
    cases r with
    | netError => simp [fetchUpdates]
    | responded status body =>
      cases body with
      | none =>
        refine iff_of_true (by simp [fetchUpdates]) (Or.inr ⟨status, rfl⟩)
      | some d => simp [fetchUpdates]

/-- C10: on mount with no user interaction, the seed-settlement effect
issues one product fetch and the debounce effect (running on mount with
the initial empty query state) issues one more at 300 ms, two in total,
both with empty term and category; and when two successful fetches
settle in sequence, the final item list is the one from the fetch that
settled last. -/
theorem claim_C10 (b : Bool) :
    (mountEffect b).countP isProductFetch = 1 ∧
    debounceRun [(0, emptyQS)] = [(300, emptyQS)] ∧
    (mountEffect b).countP isProductFetch +
      (debounceRun [(0, emptyQS)]).length = 2 ∧
    (∀ (s : AppState) (st1 st2 : Nat) (L1 L2 : List Item),
      applyUpdates s
          (fetchUpdates (HttpResult.responded st1 (some { items := some L1 })) ++
            fetchUpdates (HttpResult.responded st2 (some { items := some L2 }))) =
        { s with items := L2, error := "", loading := false }) := by
  cases b <;>
    exact ⟨rfl, rfl, rfl, fun s st1 st2 L1 L2 => rfl⟩
